import Mathlib

/-!
Verification of the concurrent aggregation engine of
QuickResilientSOARstatistics.py (zoldax/quickresilientsoarstatistics).

The Python script fetches all incidents from a SOAR platform through a
paginated API, then a pool of worker threads processes each incident:
per-incident sub-queries count artifacts, notes (incident comments plus
comments of every task) and attachments (count and total byte size), and
a lock-guarded shared dictionary accumulates the totals together with a
histogram of incident statuses.

This file is a shallow embedding of that script.  Network calls are
modelled by a `Client` record of query functions returning `Except`
values: `Except.error` stands for a raised exception in the Python code.
The shared `results` dictionary becomes the `Results` structure, the
Python dict used for the status histogram becomes an insertion-ordered
association list with the same `get(k, 0) + 1` update, and the worker
pool becomes a small-step state machine driven by an explicit schedule.
-/

namespace SOARStats

/-- One incident record as handed over by the paginated fetch.
`plan_status` is `incident.get("plan_status")`, which is absent (`none`)
when the field is missing; `inc_training` is
`incident.get("inc_training", False)`. -/
structure Record where
  id : Nat
  plan_status : Option String
  inc_training : Bool
deriving Repr, DecidableEq

/-- One attachment entity; `size` is `none` when the JSON object has no
"size" field, in which case `attachment["size"]` raises `KeyError`. -/
structure Attachment where
  size : Option Int
deriving Repr, DecidableEq

/-- One task entity linked to an incident; only its `id` is read. -/
structure Task where
  id : Nat
deriving Repr, DecidableEq

/-- The REST client, reduced to the five sub-queries the script issues
per incident.  `Except.error` models a raised exception. -/
structure Client where
  getArtifacts : Nat → Except String (List Nat)
  getComments : Nat → Except String (List Nat)
  getTasks : Nat → Except String (List Task)
  getTaskComments : Nat → Except String (List Nat)
  getAttachments : Nat → Except String (List Attachment)

/-- `count_artifacts`: `len(artifacts)`, or `0` if the query raises. -/
def count_artifacts (c : Client) (incident_id : Nat) : Nat :=
  match c.getArtifacts incident_id with
  | Except.error _ => 0
  | Except.ok artifacts => artifacts.length

/-- The `for task in tasks` loop body of `count_notes`: total number of
comments over the tasks, `none` if any per-task comment query raises
(the exception propagates out of the loop). -/
def taskCommentsTotal (c : Client) : List Task → Option Nat
  | [] => some 0
  | t :: rest =>
    match c.getTaskComments t.id with
    | Except.error _ => none
    | Except.ok comments_task =>
      match taskCommentsTotal c rest with
      | none => none
      | some n => some (comments_task.length + n)

/-- `count_notes`: incident comments plus comments of every task.  A
single `try/except` wraps the whole body, so an exception anywhere
(incident-comment query, task listing, or any per-task comment query)
makes the function return `0` — the incident comments already counted
are discarded too. -/
def count_notes (c : Client) (incident_id : Nat) : Nat :=
  match c.getComments incident_id with
  | Except.error _ => 0
  | Except.ok comments_incident =>
    match c.getTasks incident_id with
    | Except.error _ => 0
    | Except.ok tasks =>
      match taskCommentsTotal c tasks with
      | none => 0
      | some n => comments_incident.length + n

/-- `sum(attachment["size"] for attachment in attachments)`: `none` when
some attachment lacks the "size" field (`KeyError`). -/
def sumSizes : List Attachment → Option Int
  | [] => some 0
  | a :: rest =>
    match a.size with
    | none => none
    | some s =>
      match sumSizes rest with
      | none => none
      | some total => some (s + total)

/-- `count_attachments`: `(len(attachments), total_size)`, or `(0, 0)`
if the query raises or any attachment lacks a "size" field. -/
def count_attachments (c : Client) (incident_id : Nat) : Nat × Int :=
  match c.getAttachments incident_id with
  | Except.error _ => (0, 0)
  | Except.ok attachments =>
    match sumSizes attachments with
    | none => (0, 0)
    | some total_size => (attachments.length, total_size)

/-- The Python status-histogram dict, as an insertion-ordered
association list of `(plan_status, count)` pairs. -/
abbrev StatusCounts := List (Option String × Nat)

/-- `d[k] = d.get(k, 0) + 1` on the histogram dict: bump the first entry
with key `k`, or append `(k, 1)` when `k` is absent. -/
def incr (d : StatusCounts) (k : Option String) : StatusCounts :=
  match d with
  | [] => [(k, 1)]
  | (k', v) :: rest => if k' = k then (k', v + 1) :: rest else (k', v) :: incr rest k

/-- `d.get(k, 0)` on the histogram dict. -/
def lookupD (d : StatusCounts) (k : Option String) : Nat :=
  match d with
  | [] => 0
  | (k', v) :: rest => if k' = k then v else lookupD rest k

/-- `sum(d.values())` on the histogram dict. -/
def sumValues (d : StatusCounts) : Nat :=
  (d.map Prod.snd).sum

/-- The shared `results` dictionary. -/
structure Results where
  incident_count : Nat
  artifact_count : Nat
  note_count : Nat
  attachment_count : Nat
  total_attachment_size : Int
  status_counts : StatusCounts
  training_incidents : Nat
deriving Repr, DecidableEq

/-- The initial `results` dictionary built in `main`. -/
def initResults : Results :=
  { incident_count := 0
    artifact_count := 0
    note_count := 0
    attachment_count := 0
    total_attachment_size := 0
    status_counts := []
    training_incidents := 0 }

/-- `process_incident`: run the three enrichment queries for one
incident and merge their contribution into `results` (the Python code
does the merge under `lock`; here it is one atomic update). -/
def process_incident (c : Client) (incident : Record) (results : Results) : Results :=
  let artifact_count := count_artifacts c incident.id
  let note_count := count_notes c incident.id
  let att := count_attachments c incident.id
  { incident_count := results.incident_count + 1
    artifact_count := results.artifact_count + artifact_count
    note_count := results.note_count + note_count
    attachment_count := results.attachment_count + att.1
    total_attachment_size := results.total_attachment_size + att.2
    status_counts := incr results.status_counts incident.plan_status
    training_incidents :=
      results.training_incidents + (if incident.inc_training then 1 else 0) }

/-- Sequential processing of a list of incidents, merging each
contribution in list order. -/
def processAll (c : Client) (incidents : List Record) (results : Results) : Results :=
  incidents.foldl (fun res inc => process_incident c inc res) results

/-! ## Pagination (`fetch_all_incidents`)

The backend is a function from a page offset (`start`) to the response of
`/incidents/query_paged` for `{start, length, page_size}`: either an
error (a raised exception, which the Python code turns into `sys.exit`)
or the page's `data` list.  The `while True` loop is unfolded with a fuel
parameter; `none` means the fuel ran out before the loop ended, so every
theorem about a terminating run supplies sufficient fuel.  Besides the
accumulated `incidents` list the embedding also returns the number of
page requests issued, an observation the theorems about pagination
boundaries need. -/

/-- The fixed `page_size` of `fetch_all_incidents`. -/
def page_size : Nat := 1000

/-- One backend: offset ↦ response of the paged query. -/
abbrev Backend := Nat → Except String (List Record)

/-- The `while True` loop of `fetch_all_incidents`.  On a successful
page the loop appends `data` to `incidents`, stops if the page is short
(`len(data) < page_size`), otherwise advances `start` by `page_size`.
An error aborts the whole fetch (`sys.exit`).  The second component
counts the page requests issued. -/
def fetchLoop (backend : Backend) : Nat → Nat → List Record → Nat →
    Option (Except String (List Record × Nat))
  | 0, _, _, _ => none
  | fuel + 1, start, incidents, fetches =>
    match backend start with
    | Except.error e => some (Except.error e)
    | Except.ok data =>
      if data.length < page_size then
        some (Except.ok (incidents ++ data, fetches + 1))
      else
        fetchLoop backend fuel (start + page_size) (incidents ++ data) (fetches + 1)

/-- `fetch_all_incidents`: run the pagination loop from
`incidents = []`, `start = 0`. -/
def fetch_all_incidents (backend : Backend) (fuel : Nat) :
    Option (Except String (List Record × Nat)) :=
  fetchLoop backend fuel 0 [] 0

/-- A backend serving a fixed record list: the page at offset `start` is
`all[start : start + page_size]`, and no request ever fails. -/
def listBackend (all : List Record) : Backend :=
  fun start => Except.ok ((all.drop start).take page_size)

/-- The collection run of `main`, from fetch to final totals: if the
fetch aborts (`sys.exit`), no incident is ever processed and no results
snapshot is produced; otherwise every fetched incident is processed and
the final `results` value is the report's content. -/
def runMain (backend : Backend) (fuel : Nat) (c : Client) :
    Option (Except String Results) :=
  match fetch_all_incidents backend fuel with
  | none => none
  | some (Except.error e) => some (Except.error e)
  | some (Except.ok (incidents, _)) => some (Except.ok (processAll c incidents initResults))

/-! ## Worker pool

`main` fills `incidents_queue` with every fetched incident, starts
`--workers` threads running `worker`, and blocks on `queue.join()` until
`task_done()` has been called for every queued incident; only then does
it build the report from `results`.  Each `worker` loops: dequeue one
incident, run `process_incident`, call `task_done()`, and print progress
under the lock.

The embedding is a small-step state machine over an explicit
interleaving: a schedule is a list of actions, where `deq w` is worker
`w` returning from `incidents_queue.get()` with the head of the queue
(a no-op if `w` is still busy or the queue is empty — the real worker
would block), and `fin w` is worker `w` finishing `process_incident` on
the incident it holds, calling `task_done()` and printing progress (a
no-op if `w` holds nothing).  `inflight` has one slot per worker.
`progressCalls` records every `(current, total)` pair handed to
`print_progress`, where `current` is
`total_incidents - incidents_queue.qsize()`. -/

/-- `progress = current / float(total)` of `print_progress`: `none`
models the `ZeroDivisionError` raised when `total == 0`.  (Python uses
binary floats; the exact quotient is kept here, which does not affect
whether the division itself is defined.) -/
def print_progress (current total : Nat) : Option ℚ :=
  if total = 0 then none else some ((current : ℚ) / (total : ℚ))

/-- One interleaving step: worker `w` dequeues, or finishes its
incident. -/
inductive WAction where
  | deq (w : Nat)
  | fin (w : Nat)
deriving Repr, DecidableEq

/-- Shared state of the pool: the queue, each worker's in-flight
incident, the log of incidents fully processed (in completion order),
the shared `results`, the number of `task_done()` calls, and the trace
of `print_progress` invocations. -/
structure PoolState where
  queue : List Record
  inflight : List (Option Record)
  processedLog : List Record
  results : Results
  tasksDone : Nat
  progressCalls : List (Nat × Nat)
deriving Repr, DecidableEq

/-- The pool state before any worker runs: the queue holds the whole
backlog and the `n` workers are idle. -/
def initPool (backlog : List Record) (n : Nat) : PoolState :=
  { queue := backlog
    inflight := List.replicate n none
    processedLog := []
    results := initResults
    tasksDone := 0
    progressCalls := [] }

/-- One step of the interleaved execution.  `total` is
`total_incidents`. -/
def poolStep (c : Client) (total : Nat) (s : PoolState) : WAction → PoolState
  | WAction.deq w =>
    match s.inflight[w]? with
    | some none =>
      match s.queue with
      | [] => s
      | r :: rest => { s with queue := rest, inflight := s.inflight.set w (some r) }
    | _ => s
  | WAction.fin w =>
    match s.inflight[w]? with
    | some (some r) =>
      { queue := s.queue
        inflight := s.inflight.set w none
        processedLog := s.processedLog ++ [r]
        results := process_incident c r s.results
        tasksDone := s.tasksDone + 1
        progressCalls := s.progressCalls ++ [(total - s.queue.length, total)] }
    | _ => s

/-- Run a whole schedule of interleaved steps. -/
def execPool (c : Client) (total : Nat) (s : PoolState) (schedule : List WAction) :
    PoolState :=
  schedule.foldl (poolStep c total) s

/-- The coordinator around the pool: `queue.join()` returns once
`task_done()` has been called for all `backlog.length` queued incidents,
and only then is the final `results` snapshot taken; before that the
coordinator is still blocked and no report exists. -/
def runPool (c : Client) (backlog : List Record) (n : Nat) (schedule : List WAction) :
    Option Results :=
  let s := execPool c backlog.length (initPool backlog n) schedule
  if s.tasksDone = backlog.length then some s.results else none

/-- A schedule that drains `len` incidents through worker 0: each
incident is dequeued and then finished. -/
def drainSchedule : Nat → List WAction
  | 0 => []
  | len + 1 => WAction.deq 0 :: WAction.fin 0 :: drainSchedule len

/-- The multiset of incidents some worker is currently holding. -/
def inflightRecords (s : PoolState) : List Record :=
  s.inflight.filterMap id

/-! ## Histogram lemmas -/

theorem lookupD_incr (d : StatusCounts) (k q : Option String) :
    lookupD (incr d k) q = lookupD d q + (if k = q then 1 else 0) := by
  induction d with
  | nil => by_cases h : k = q <;> simp [incr, lookupD, h]
  | cons hd tl ih =>
    obtain ⟨a, v⟩ := hd
    by_cases hak : a = k
    · subst hak
      by_cases haq : a = q <;> simp [incr, lookupD, haq]
    · by_cases haq : a = q
      · subst haq
        have hkq : ¬ k = a := fun h => hak h.symm
        simp [incr, lookupD, hak, hkq]
      · simp [incr, lookupD, hak, haq, ih]

theorem sumValues_incr (d : StatusCounts) (k : Option String) :
    sumValues (incr d k) = sumValues d + 1 := by
  induction d with
  | nil => simp [incr, sumValues]
  | cons hd tl ih =>
    obtain ⟨a, v⟩ := hd
    by_cases hak : a = k
    · simp [incr, sumValues, hak]
      omega
    · simp [incr, sumValues, hak] at *
      omega

/-! ## Characterisation of the sequential fold -/

theorem processAll_cons (c : Client) (r : Record) (rest : List Record) (res : Results) :
    processAll c (r :: rest) res = processAll c rest (process_incident c r res) := rfl

theorem processAll_incident_count (c : Client) (recs : List Record) :
    ∀ res : Results,
      (processAll c recs res).incident_count = res.incident_count + recs.length := by
  induction recs with
  | nil => intro res; simp [processAll]
  | cons r rest ih =>
    intro res
    rw [processAll_cons, ih]
    simp [process_incident]
    omega

theorem processAll_artifact_count (c : Client) (recs : List Record) :
    ∀ res : Results,
      (processAll c recs res).artifact_count =
        res.artifact_count + (recs.map (fun i => count_artifacts c i.id)).sum := by
  induction recs with
  | nil => intro res; simp [processAll]
  | cons r rest ih =>
    intro res
    rw [processAll_cons, ih]
    simp [process_incident]
    omega

theorem processAll_note_count (c : Client) (recs : List Record) :
    ∀ res : Results,
      (processAll c recs res).note_count =
        res.note_count + (recs.map (fun i => count_notes c i.id)).sum := by
  induction recs with
  | nil => intro res; simp [processAll]
  | cons r rest ih =>
    intro res
    rw [processAll_cons, ih]
    simp [process_incident]
    omega

theorem processAll_attachment_count (c : Client) (recs : List Record) :
    ∀ res : Results,
      (processAll c recs res).attachment_count =
        res.attachment_count + (recs.map (fun i => (count_attachments c i.id).1)).sum := by
  induction recs with
  | nil => intro res; simp [processAll]
  | cons r rest ih =>
    intro res
    rw [processAll_cons, ih]
    simp [process_incident]
    omega

theorem processAll_size (c : Client) (recs : List Record) :
    ∀ res : Results,
      (processAll c recs res).total_attachment_size =
        res.total_attachment_size + (recs.map (fun i => (count_attachments c i.id).2)).sum := by
  induction recs with
  | nil => intro res; simp [processAll]
  | cons r rest ih =>
    intro res
    rw [processAll_cons, ih]
    simp [process_incident]
    omega

theorem processAll_lookupD (c : Client) (recs : List Record) :
    ∀ (res : Results) (q : Option String),
      lookupD (processAll c recs res).status_counts q =
        lookupD res.status_counts q +
          (recs.map Record.plan_status).countP (fun x => decide (x = q)) := by
  induction recs with
  | nil => intro res q; simp [processAll]
  | cons r rest ih =>
    intro res q
    rw [processAll_cons, ih]
    simp [process_incident, lookupD_incr, List.countP_cons]
    by_cases h : r.plan_status = q <;> simp [h] <;> omega

theorem processAll_sumValues (c : Client) (recs : List Record) :
    ∀ res : Results,
      sumValues (processAll c recs res).status_counts =
        sumValues res.status_counts + recs.length := by
  induction recs with
  | nil => intro res; simp [processAll]
  | cons r rest ih =>
    intro res
    rw [processAll_cons, ih]
    simp [process_incident, sumValues_incr]
    omega

/-! ## Concrete inputs used by the scenario and witness theorems -/

/-- Scenario record 1: status "A". -/
def rec1 : Record := { id := 1, plan_status := some "A", inc_training := false }

/-- Scenario record 2: status "C"; its attachment query fails. -/
def rec2 : Record := { id := 2, plan_status := some "C", inc_training := false }

/-- Scenario record 3: status "A". -/
def rec3 : Record := { id := 3, plan_status := some "A", inc_training := false }

/-- The client serving the enrichment data of the concrete scenario:
artifact counts 1, 2, 0; note counts 0, 1, 3 (all top-level comments,
no tasks); attachments (2, 500 bytes) for record 1, a failing query for
record 2, (1, 100 bytes) for record 3. -/
def scenarioClient : Client :=
  { getArtifacts := fun i =>
      Except.ok (List.replicate (if i = 1 then 1 else if i = 2 then 2 else 0) 0)
    getComments := fun i =>
      Except.ok (List.replicate (if i = 1 then 0 else if i = 2 then 1 else 3) 0)
    getTasks := fun _ => Except.ok []
    getTaskComments := fun _ => Except.ok []
    getAttachments := fun i =>
      if i = 1 then Except.ok [{ size := some 250 }, { size := some 250 }]
      else if i = 2 then Except.error "attachment query failed"
      else Except.ok [{ size := some 100 }] }

/-- A client on which every sub-query succeeds with no data. -/
def trivialClient : Client :=
  { getArtifacts := fun _ => Except.ok []
    getComments := fun _ => Except.ok []
    getTasks := fun _ => Except.ok []
    getTaskComments := fun _ => Except.ok []
    getAttachments := fun _ => Except.ok [] }

/-- A record with no status field. -/
def rec0 : Record := { id := 0, plan_status := none, inc_training := false }

/-- C1: for 3 records with statuses A, C, A where record 2's attachment
query fails and enrichment yields artifact counts 1, 2, 0, note counts
0, 1, 3 and attachment pairs (2, 500), (0, 0), (1, 100), the final
aggregate has recordCount 3, artifactTotal 3, noteTotal 4,
attachmentCount 3, attachmentByteTotal 600 and histogram A ↦ 2, C ↦ 1. -/
theorem claim_concrete_scenario :
    count_artifacts scenarioClient rec1.id = 1
    ∧ count_artifacts scenarioClient rec2.id = 2
    ∧ count_artifacts scenarioClient rec3.id = 0
    ∧ count_notes scenarioClient rec1.id = 0
    ∧ count_notes scenarioClient rec2.id = 1
    ∧ count_notes scenarioClient rec3.id = 3
    ∧ count_attachments scenarioClient rec1.id = (2, 500)
    ∧ count_attachments scenarioClient rec2.id = (0, 0)
    ∧ count_attachments scenarioClient rec3.id = (1, 100)
    ∧ processAll scenarioClient [rec1, rec2, rec3] initResults =
        { incident_count := 3
          artifact_count := 3
          note_count := 4
          attachment_count := 3
          total_attachment_size := 600
          status_counts := [(some "A", 2), (some "C", 1)]
          training_incidents := 0 } := by
  exact ⟨rfl, rfl, rfl, rfl, rfl, rfl, rfl, rfl, rfl, rfl⟩

/-- C2: merging the per-record contributions in any permuted order
yields the same final numeric totals and the same status histogram
(the histogram compared as a mapping, the way Python compares dicts). -/
theorem claim_merge_commutative (c : Client) (recs recs' : List Record)
    (h : recs.Perm recs') :
    (processAll c recs initResults).incident_count =
      (processAll c recs' initResults).incident_count
    ∧ (processAll c recs initResults).artifact_count =
      (processAll c recs' initResults).artifact_count
    ∧ (processAll c recs initResults).note_count =
      (processAll c recs' initResults).note_count
    ∧ (processAll c recs initResults).attachment_count =
      (processAll c recs' initResults).attachment_count
    ∧ (processAll c recs initResults).total_attachment_size =
      (processAll c recs' initResults).total_attachment_size
    ∧ ∀ q, lookupD (processAll c recs initResults).status_counts q =
        lookupD (processAll c recs' initResults).status_counts q := by
  refine ⟨?_, ?_, ?_, ?_, ?_, ?_⟩
  · rw [processAll_incident_count, processAll_incident_count, h.length_eq]
  · rw [processAll_artifact_count, processAll_artifact_count,
      (h.map (fun i => count_artifacts c i.id)).sum_eq]
  · rw [processAll_note_count, processAll_note_count,
      (h.map (fun i => count_notes c i.id)).sum_eq]
  · rw [processAll_attachment_count, processAll_attachment_count,
      (h.map (fun i => (count_attachments c i.id).1)).sum_eq]
  · rw [processAll_size, processAll_size,
      (h.map (fun i => (count_attachments c i.id).2)).sum_eq]
  · intro q
    rw [processAll_lookupD, processAll_lookupD,
      (h.map Record.plan_status).countP_eq]

/-- Witness for C2 at the two-record backlog swapped. -/
theorem claim_merge_commutative_witness :
    (processAll trivialClient [rec1, rec2] initResults).incident_count =
      (processAll trivialClient [rec2, rec1] initResults).incident_count
    ∧ ∀ q, lookupD (processAll trivialClient [rec1, rec2] initResults).status_counts q =
        lookupD (processAll trivialClient [rec2, rec1] initResults).status_counts q := by
  have h := claim_merge_commutative trivialClient [rec1, rec2] [rec2, rec1]
    (List.Perm.swap rec2 rec1 [])
  exact ⟨h.1, h.2.2.2.2.2⟩

/-- C3: after every run (and at every observation point, namely after
processing any list of records, including records with a missing status
field), recordCount equals the sum of the histogram values. -/
theorem claim_conservation (c : Client) (recs : List Record) :
    (processAll c recs initResults).incident_count =
      sumValues (processAll c recs initResults).status_counts := by
  rw [processAll_incident_count, processAll_sumValues]
  simp [initResults, sumValues]

/-- C4: a record whose attachment sub-query fails still contributes its
artifact and note counts, contributes (0, 0) to the attachment totals,
is still counted in recordCount, and the worker step that completes it
still calls `task_done()` and records one more progress report. -/
theorem claim_attachment_failure_isolated (c : Client) (incident : Record)
    (results : Results) (h : ∃ e, c.getAttachments incident.id = Except.error e) :
    (process_incident c incident results).artifact_count =
      results.artifact_count + count_artifacts c incident.id
    ∧ (process_incident c incident results).note_count =
      results.note_count + count_notes c incident.id
    ∧ (process_incident c incident results).attachment_count = results.attachment_count
    ∧ (process_incident c incident results).total_attachment_size =
      results.total_attachment_size
    ∧ (process_incident c incident results).incident_count = results.incident_count + 1
    ∧ ∀ (total : Nat) (s : PoolState) (w : Nat),
        s.inflight[w]? = some (some incident) →
        (poolStep c total s (WAction.fin w)).tasksDone = s.tasksDone + 1
        ∧ (poolStep c total s (WAction.fin w)).progressCalls.length =
            s.progressCalls.length + 1 := by
  obtain ⟨e, he⟩ := h
  have hatt : count_attachments c incident.id = (0, 0) := by
    simp [count_attachments, he]
  refine ⟨?_, ?_, ?_, ?_, ?_, ?_⟩
  · simp [process_incident]
  · simp [process_incident]
  · simp [process_incident, hatt]
  · simp [process_incident, hatt]
  · simp [process_incident]
  · intro total s w hw
    constructor <;> simp [poolStep, hw]

/-- Witness for C4: record 2 of the concrete scenario, whose attachment
query fails. -/
theorem claim_attachment_failure_isolated_witness :
    (process_incident scenarioClient rec2 initResults).incident_count =
      initResults.incident_count + 1
    ∧ (process_incident scenarioClient rec2 initResults).attachment_count =
      initResults.attachment_count
    ∧ (process_incident scenarioClient rec2 initResults).note_count =
      initResults.note_count + count_notes scenarioClient rec2.id
    ∧ (process_incident scenarioClient rec2 initResults).artifact_count =
      initResults.artifact_count + count_artifacts scenarioClient rec2.id := by
  have h := claim_attachment_failure_isolated scenarioClient rec2 initResults
    ⟨"attachment query failed", rfl⟩
  exact ⟨h.2.2.2.2.1, h.2.2.1, h.2.1, h.1⟩

/-! ## Failure granularity of the note derivation -/

theorem taskCommentsTotal_eq_none (c : Client) (tasks : List Task) (t : Task)
    (ht : t ∈ tasks) (e : String) (he : c.getTaskComments t.id = Except.error e) :
    taskCommentsTotal c tasks = none := by
  induction tasks with
  | nil => cases ht
  | cons a rest ih =>
    rcases List.mem_cons.mp ht with h | h
    · subst h
      simp [taskCommentsTotal, he]
    · cases hy : c.getTaskComments a.id with
      | error e2 => simp [taskCommentsTotal, hy]
      | ok cs => simp [taskCommentsTotal, hy, ih h]

/-- A client whose only failing sub-query is the task listing, while one
top-level incident comment exists. -/
def taskFailClient : Client :=
  { getArtifacts := fun _ => Except.ok [0]
    getComments := fun _ => Except.ok [0]
    getTasks := fun _ => Except.error "task listing failed"
    getTaskComments := fun _ => Except.ok []
    getAttachments := fun _ => Except.ok [] }

/-- Counterexample for C5: with one top-level incident comment and a
failing task listing, the whole note contribution is 0 — the top-level
comment count is not preserved, contradicting the claim that such a
record still contributes its incident-comment count to the note total. -/
theorem claim_note_subquery_cex :
    taskFailClient.getComments rec0.id = Except.ok [0]
    ∧ (∃ e, taskFailClient.getTasks rec0.id = Except.error e)
    ∧ count_notes taskFailClient rec0.id = 0
    ∧ (process_incident taskFailClient rec0 initResults).note_count = 0
    ∧ ¬((process_incident taskFailClient rec0 initResults).note_count = 1) := by
  exact ⟨rfl, ⟨"task listing failed", rfl⟩, rfl, rfl, by decide⟩

/-- A client whose only failing sub-query is the artifact listing. -/
def artifactFailClient : Client :=
  { getArtifacts := fun _ => Except.error "artifact listing failed"
    getComments := fun _ => Except.ok [0]
    getTasks := fun _ => Except.ok []
    getTaskComments := fun _ => Except.ok []
    getAttachments := fun _ => Except.ok [{ size := some 7 }] }

/-- A client whose only failing sub-query is the per-task comment
listing (the task listing itself succeeds with one task). -/
def taskCommentFailClient : Client :=
  { getArtifacts := fun _ => Except.ok [0]
    getComments := fun _ => Except.ok [0]
    getTasks := fun _ => Except.ok [{ id := 5 }]
    getTaskComments := fun _ => Except.error "task comment listing failed"
    getAttachments := fun _ => Except.ok [] }

/-- A client whose only failing sub-query is the incident-comment
listing. -/
def commentFailClient : Client :=
  { getArtifacts := fun _ => Except.ok [0]
    getComments := fun _ => Except.error "comment listing failed"
    getTasks := fun _ => Except.ok []
    getTaskComments := fun _ => Except.ok []
    getAttachments := fun _ => Except.ok [] }

/-- C5 amended: failure isolation is per derivation, not per individual
sub-query.  A failing artifact listing zeroes only the artifact
contribution and a failing attachment listing zeroes only the attachment
contribution, but a failure anywhere inside the note derivation — the
incident-comment listing, the task listing, or any per-task comment
listing — zeroes the entire note contribution of the record, top-level
incident comments included, while the artifact and attachment
contributions stay intact. -/
theorem claim_subquery_isolation (c : Client) (incident : Record) (results : Results) :
    ((∃ e, c.getArtifacts incident.id = Except.error e) →
      (process_incident c incident results).artifact_count = results.artifact_count
      ∧ (process_incident c incident results).note_count =
          results.note_count + count_notes c incident.id
      ∧ (process_incident c incident results).attachment_count =
          results.attachment_count + (count_attachments c incident.id).1
      ∧ (process_incident c incident results).total_attachment_size =
          results.total_attachment_size + (count_attachments c incident.id).2)
    ∧ ((∃ e, c.getComments incident.id = Except.error e) →
      (process_incident c incident results).note_count = results.note_count
      ∧ (process_incident c incident results).artifact_count =
          results.artifact_count + count_artifacts c incident.id
      ∧ (process_incident c incident results).attachment_count =
          results.attachment_count + (count_attachments c incident.id).1)
    ∧ ((∃ e, c.getTasks incident.id = Except.error e) →
      (process_incident c incident results).note_count = results.note_count
      ∧ (process_incident c incident results).artifact_count =
          results.artifact_count + count_artifacts c incident.id
      ∧ (process_incident c incident results).attachment_count =
          results.attachment_count + (count_attachments c incident.id).1)
    ∧ ((∃ tasks, c.getTasks incident.id = Except.ok tasks
          ∧ ∃ t ∈ tasks, ∃ e, c.getTaskComments t.id = Except.error e) →
      (process_incident c incident results).note_count = results.note_count
      ∧ (process_incident c incident results).artifact_count =
          results.artifact_count + count_artifacts c incident.id
      ∧ (process_incident c incident results).attachment_count =
          results.attachment_count + (count_attachments c incident.id).1)
    ∧ ((∃ e, c.getAttachments incident.id = Except.error e) →
      (process_incident c incident results).attachment_count = results.attachment_count
      ∧ (process_incident c incident results).total_attachment_size =
          results.total_attachment_size
      ∧ (process_incident c incident results).artifact_count =
          results.artifact_count + count_artifacts c incident.id
      ∧ (process_incident c incident results).note_count =
          results.note_count + count_notes c incident.id) := by
  refine ⟨?_, ?_, ?_, ?_, ?_⟩
  · rintro ⟨e, he⟩
    have : count_artifacts c incident.id = 0 := by simp [count_artifacts, he]
    simp [process_incident, this]
  · rintro ⟨e, he⟩
    have : count_notes c incident.id = 0 := by simp [count_notes, he]
    simp [process_incident, this]
  · rintro ⟨e, he⟩
    have : count_notes c incident.id = 0 := by
      cases hc : c.getComments incident.id <;> simp [count_notes, hc, he]
    simp [process_incident, this]
  · rintro ⟨tasks, htasks, t, ht, e, he⟩
    have : count_notes c incident.id = 0 := by
      cases hc : c.getComments incident.id with
      | error e2 => simp [count_notes, hc]
      | ok cs =>
        simp [count_notes, hc, htasks, taskCommentsTotal_eq_none c tasks t ht e he]
    simp [process_incident, this]
  · rintro ⟨e, he⟩
    have : count_attachments c incident.id = (0, 0) := by
      simp [count_attachments, he]
    simp [process_incident, this]

/-- Witness for the amended C5, one concrete client per failure mode. -/
theorem claim_subquery_isolation_witness :
    (process_incident artifactFailClient rec0 initResults).artifact_count =
      initResults.artifact_count
    ∧ (process_incident commentFailClient rec0 initResults).note_count =
      initResults.note_count
    ∧ (process_incident taskFailClient rec0 initResults).note_count =
      initResults.note_count
    ∧ (process_incident taskCommentFailClient rec0 initResults).note_count =
      initResults.note_count
    ∧ (process_incident scenarioClient rec2 initResults).total_attachment_size =
      initResults.total_attachment_size := by
  refine ⟨?_, ?_, ?_, ?_, ?_⟩
  · exact ((claim_subquery_isolation artifactFailClient rec0 initResults).1
      ⟨"artifact listing failed", rfl⟩).1
  · exact ((claim_subquery_isolation commentFailClient rec0 initResults).2.1
      ⟨"comment listing failed", rfl⟩).1
  · exact ((claim_subquery_isolation taskFailClient rec0 initResults).2.2.1
      ⟨"task listing failed", rfl⟩).1
  · exact ((claim_subquery_isolation taskCommentFailClient rec0 initResults).2.2.2.1
      ⟨[{ id := 5 }], rfl, { id := 5 }, by simp, "task comment listing failed", rfl⟩).1
  · exact ((claim_subquery_isolation scenarioClient rec2 initResults).2.2.2.2
      ⟨"attachment query failed", rfl⟩).2.1

/-! ## Malformed attachments -/

theorem sumSizes_eq_none (atts : List Attachment) (a : Attachment)
    (ha : a ∈ atts) (hs : a.size = none) : sumSizes atts = none := by
  induction atts with
  | nil => cases ha
  | cons b rest ih =>
    rcases List.mem_cons.mp ha with h | h
    · subst h
      simp [sumSizes, hs]
    · cases hb : b.size with
      | none => simp [sumSizes, hb]
      | some s => simp [sumSizes, hb, ih h]

/-- A client serving one well-formed and one malformed attachment. -/
def badAttachClient : Client :=
  { getArtifacts := fun _ => Except.ok []
    getComments := fun _ => Except.ok []
    getTasks := fun _ => Except.ok []
    getTaskComments := fun _ => Except.ok []
    getAttachments := fun _ => Except.ok [{ size := some 5 }, { size := none }] }

/-- C9: if any attachment entity lacks a numeric size field (or the
listing fails outright), `count_attachments` returns (0, 0) for the
whole record — the entire attachment count and byte total are zeroed,
not merely the malformed entry. -/
theorem claim_malformed_attachment (c : Client) (iid : Nat) :
    ((∃ atts, c.getAttachments iid = Except.ok atts ∧ ∃ a ∈ atts, a.size = none) →
      count_attachments c iid = (0, 0))
    ∧ ((∃ e, c.getAttachments iid = Except.error e) →
      count_attachments c iid = (0, 0)) := by
  constructor
  · rintro ⟨atts, hatts, a, ha, hs⟩
    simp [count_attachments, hatts, sumSizes_eq_none atts a ha hs]
  · rintro ⟨e, he⟩
    simp [count_attachments, he]

/-- Witness for C9: two attachments, 5 bytes and one with no size field,
and the whole record reports (0, 0). -/
theorem claim_malformed_attachment_witness :
    count_attachments badAttachClient 0 = (0, 0) := by
  exact (claim_malformed_attachment badAttachClient 0).1
    ⟨[{ size := some 5 }, { size := none }], rfl, { size := none }, by simp, rfl⟩

/-! ## Pagination -/

theorem fetchLoop_listBackend (l : List Record) :
    ∀ (fuel start : Nat) (acc : List Record) (fetches : Nat),
      (l.length - start) / page_size + 1 ≤ fuel →
      fetchLoop (listBackend l) fuel start acc fetches =
        some (Except.ok
          (acc ++ l.drop start, fetches + ((l.length - start) / page_size + 1))) := by
  intro fuel
  induction fuel with
  | zero =>
    intro start acc fetches h
    exact absurd h (Nat.not_succ_le_zero _)
  | succ fuel ih =>
    intro start acc fetches h
    have hdlen : ((l.drop start).take page_size).length = min page_size (l.length - start) := by
      rw [List.length_take, List.length_drop]
    by_cases hlt : l.length - start < page_size
    · have hall : (l.drop start).take page_size = l.drop start := by
        apply List.take_of_length_le
        rw [List.length_drop]
        omega
      have hshort2 : (l.drop start).length < page_size := by
        rw [List.length_drop]
        omega
      have hdiv : (l.length - start) / page_size = 0 := Nat.div_eq_of_lt hlt
      simp only [fetchLoop, listBackend, hall, hdiv]
      rw [if_pos hshort2]
    · have hfull : ¬ ((l.drop start).take page_size).length < page_size := by omega
      have hdiv : (l.length - start) / page_size =
          (l.length - start - page_size) / page_size + 1 :=
        Nat.div_eq_sub_div (by norm_num [page_size]) (by omega)
      have hsub : l.length - (start + page_size) = l.length - start - page_size := by
        omega
      have hbound : (l.length - (start + page_size)) / page_size + 1 ≤ fuel := by
        rw [hsub]
        omega
      have hstep := ih (start + page_size) (acc ++ (l.drop start).take page_size)
        (fetches + 1) hbound
      simp only [fetchLoop, listBackend]
      rw [if_neg hfull, hstep]
      have hdd : (l.drop start).drop page_size = l.drop (start + page_size) :=
        List.drop_drop page_size start l
      have hdrop : (l.drop start).take page_size ++ l.drop (start + page_size) =
          l.drop start := by
        rw [← hdd, List.take_append_drop]
      have hcount : fetches + 1 + ((l.length - (start + page_size)) / page_size + 1) =
          fetches + ((l.length - start) / page_size + 1) := by
        rw [hsub]
        omega
      rw [List.append_assoc, hdrop, hcount]

/-- C7: against a backend holding the record list `l`, the pagination
loop (fixed page size 1000, starting offset 0, appending each page)
returns exactly `l` — the concatenation of all fetched pages — using
`l.length / 1000 + 1` page requests, so it terminates exactly on the
first short page: 1000 records cost two fetches (the second page being
empty), 999 records cost one. -/
theorem claim_pagination_boundary :
    (∀ l : List Record,
      fetch_all_incidents (listBackend l) (l.length / page_size + 1) =
        some (Except.ok (l, l.length / page_size + 1)))
    ∧ (∀ r : Record,
      fetch_all_incidents (listBackend (List.replicate page_size r)) 2 =
        some (Except.ok (List.replicate page_size r, 2)))
    ∧ (∀ r : Record,
      fetch_all_incidents (listBackend (List.replicate (page_size - 1) r)) 1 =
        some (Except.ok (List.replicate (page_size - 1) r, 1))) := by
  have base : ∀ l : List Record,
      fetch_all_incidents (listBackend l) (l.length / page_size + 1) =
        some (Except.ok (l, l.length / page_size + 1)) := by
    intro l
    have h := fetchLoop_listBackend l (l.length / page_size + 1) 0 [] 0 (by simp)
    simpa [fetch_all_incidents] using h
  refine ⟨base, ?_, ?_⟩
  · intro r
    have h := base (List.replicate page_size r)
    have hlen : (List.replicate page_size r).length = page_size := List.length_replicate _ _
    rw [hlen] at h
    have h2 : page_size / page_size + 1 = 2 := by norm_num [page_size]
    rw [h2] at h
    exact h
  · intro r
    have h := base (List.replicate (page_size - 1) r)
    have hlen : (List.replicate (page_size - 1) r).length = page_size - 1 :=
      List.length_replicate _ _
    rw [hlen] at h
    have h2 : (page_size - 1) / page_size + 1 = 1 := by norm_num [page_size]
    rw [h2] at h
    exact h

/-- A backend whose first page is full and whose second page request
(at offset 1000) fails. -/
def failPage2Backend (r : Record) : Backend :=
  fun start =>
    if start = 0 then Except.ok (List.replicate page_size r)
    else Except.error "page 2 failed"

/-- C6: a failing page request aborts the whole collection run — the
fetch returns the error instead of a record list, no incident is ever
processed and no final results snapshot is produced — including the
concrete case of a failure on page 2 after a full first page. -/
theorem claim_fatal_short_circuit :
    (∀ (backend : Backend) (fuel : Nat) (c : Client) (e : String),
      fetch_all_incidents backend fuel = some (Except.error e) →
      runMain backend fuel c = some (Except.error e))
    ∧ (∀ r : Record,
      fetch_all_incidents (failPage2Backend r) 2 = some (Except.error "page 2 failed"))
    ∧ (∀ (r : Record) (c : Client),
      runMain (failPage2Backend r) 2 c = some (Except.error "page 2 failed")) := by
  have hfatal : ∀ (backend : Backend) (fuel : Nat) (c : Client) (e : String),
      fetch_all_incidents backend fuel = some (Except.error e) →
      runMain backend fuel c = some (Except.error e) := by
    intro backend fuel c e h
    simp [runMain, h]
  have hpage2 : ∀ r : Record,
      fetch_all_incidents (failPage2Backend r) 2 = some (Except.error "page 2 failed") := by
    intro r
    have h0 : failPage2Backend r 0 = Except.ok (List.replicate page_size r) := by
      simp [failPage2Backend]
    have h1 : failPage2Backend r (0 + page_size) = Except.error "page 2 failed" := by
      have hne : ¬ (0 + page_size = 0) := by norm_num [page_size]
      simp only [failPage2Backend, if_neg hne]
    have hlen : ¬ ((List.replicate page_size r).length < page_size) := by
      rw [List.length_replicate]
      omega
    simp only [fetch_all_incidents, fetchLoop, h0, h1, hlen]
    simp
  exact ⟨hfatal, hpage2, fun r c => hfatal _ _ c _ (hpage2 r)⟩

/-- Witness for C6: the concrete failing backend, a trivial client. -/
theorem claim_fatal_short_circuit_witness :
    runMain (failPage2Backend rec0) 2 trivialClient =
      some (Except.error "page 2 failed") := by
  exact claim_fatal_short_circuit.2.2 rec0 trivialClient

/-! ## Worker-pool bookkeeping lemmas -/

theorem mem_of_getElem?_eq {α : Type} {l : List α} {n : Nat} {a : α}
    (h : l[n]? = some a) : a ∈ l := by
  obtain ⟨hlt, he⟩ := List.getElem?_eq_some.mp h
  exact he ▸ List.getElem_mem hlt

theorem set_same {α : Type} (l : List α) :
    ∀ (i : Nat) (a : α), l[i]? = some a → l.set i a = l := by
  induction l with
  | nil => intro i a h; simp at h
  | cons b tail ih =>
    intro i a h
    cases i with
    | zero =>
      have hb : b = a := by simpa using h
      subst hb
      rfl
    | succ j =>
      have hj : tail[j]? = some a := by simpa using h
      simp [List.set, ih j a hj]

theorem coe_filterMap_set_put {α : Type} (l : List (Option α)) :
    ∀ (w : Nat) (r : α), l[w]? = some none →
      (↑((l.set w (some r)).filterMap id) : Multiset α) = r ::ₘ ↑(l.filterMap id) := by
  induction l with
  | nil => intro w r h; simp at h
  | cons a tail ih =>
    intro w r h
    cases w with
    | zero =>
      have ha : a = none := by simpa using h
      subst ha
      simp [List.filterMap_cons]
    | succ j =>
      have hj : tail[j]? = some none := by simpa using h
      cases a with
      | none =>
        simpa [List.filterMap_cons] using ih j r hj
      | some b =>
        simp only [List.set, List.filterMap_cons, id]
        rw [← Multiset.cons_coe, ← Multiset.cons_coe, ih j r hj, Multiset.cons_swap]

theorem coe_filterMap_set_take {α : Type} (l : List (Option α)) :
    ∀ (w : Nat) (r : α), l[w]? = some (some r) →
      (↑(l.filterMap id) : Multiset α) = r ::ₘ ↑((l.set w none).filterMap id) := by
  induction l with
  | nil => intro w r h; simp at h
  | cons a tail ih =>
    intro w r h
    cases w with
    | zero =>
      have ha : a = some r := by simpa using h
      subst ha
      simp [List.filterMap_cons]
    | succ j =>
      have hj : tail[j]? = some (some r) := by simpa using h
      cases a with
      | none =>
        simpa [List.filterMap_cons] using ih j r hj
      | some b =>
        simp only [List.set, List.filterMap_cons, id]
        rw [← Multiset.cons_coe, ← Multiset.cons_coe, ih j r hj, Multiset.cons_swap]

theorem filterMap_replicate_none {α : Type} (n : Nat) :
    (List.replicate n (none : Option α)).filterMap id = [] := by
  induction n with
  | zero => rfl
  | succ m ih => simp [List.replicate, List.filterMap_cons, ih]

theorem replicate_none_getElem_zero {α : Type} (n : Nat) (h : 0 < n) :
    (List.replicate n (none : Option α))[0]? = some none := by
  cases n with
  | zero => omega
  | succ m => simp [List.replicate]

/-- The state invariant of the pool: the queue, the in-flight slots and
the processed log together hold exactly the backlog (each record exactly
once), `tasksDone` counts the processed log, the worker count is fixed,
and every recorded progress call reports out of `backlog.length`, which
was positive at the time of the call. -/
def PoolInv (backlog : List Record) (n : Nat) (s : PoolState) : Prop :=
  ((↑s.queue : Multiset Record) + ↑(inflightRecords s) + ↑s.processedLog = ↑backlog)
  ∧ s.tasksDone = s.processedLog.length
  ∧ s.inflight.length = n
  ∧ ∀ p ∈ s.progressCalls, p.2 = backlog.length ∧ 0 < backlog.length

theorem initPool_inv (backlog : List Record) (n : Nat) :
    PoolInv backlog n (initPool backlog n) := by
  refine ⟨?_, rfl, List.length_replicate _ _, ?_⟩
  · simp [initPool, inflightRecords, filterMap_replicate_none]
  · intro p hp
    simp [initPool] at hp

theorem poolStep_inv (c : Client) (backlog : List Record) (n : Nat) (s : PoolState)
    (a : WAction) (h : PoolInv backlog n s) :
    PoolInv backlog n (poolStep c backlog.length s a) := by
  obtain ⟨hms, htd, hlen, hpc⟩ := h
  cases a with
  | deq w =>
    cases hw : s.inflight[w]? with
    | none =>
      have hid : poolStep c backlog.length s (WAction.deq w) = s := by
        simp [poolStep, hw]
      rw [hid]
      exact ⟨hms, htd, hlen, hpc⟩
    | some o =>
      cases o with
      | some r =>
        have hid : poolStep c backlog.length s (WAction.deq w) = s := by
          simp [poolStep, hw]
        rw [hid]
        exact ⟨hms, htd, hlen, hpc⟩
      | none =>
        cases hq : s.queue with
        | nil =>
          have hid : poolStep c backlog.length s (WAction.deq w) = s := by
            simp [poolStep, hw, hq]
          rw [hid]
          exact ⟨hms, htd, hlen, hpc⟩
        | cons r rest =>
          have hstep : poolStep c backlog.length s (WAction.deq w) =
              { s with queue := rest, inflight := s.inflight.set w (some r) } := by
            simp [poolStep, hw, hq]
          rw [hstep]
          refine ⟨?_, htd, by simp [hlen], hpc⟩
          show (↑rest : Multiset Record) + ↑((s.inflight.set w (some r)).filterMap id)
              + ↑s.processedLog = ↑backlog
          rw [coe_filterMap_set_put s.inflight w r hw]
          rw [Multiset.add_cons, Multiset.cons_add]
          rw [hq] at hms
          rw [← Multiset.cons_coe, Multiset.cons_add, Multiset.cons_add] at hms
          exact hms
  | fin w =>
    cases hw : s.inflight[w]? with
    | none =>
      have hid : poolStep c backlog.length s (WAction.fin w) = s := by
        simp [poolStep, hw]
      rw [hid]
      exact ⟨hms, htd, hlen, hpc⟩
    | some o =>
      cases o with
      | none =>
        have hid : poolStep c backlog.length s (WAction.fin w) = s := by
          simp [poolStep, hw]
        rw [hid]
        exact ⟨hms, htd, hlen, hpc⟩
      | some r =>
        have hstep : poolStep c backlog.length s (WAction.fin w) =
            { queue := s.queue
              inflight := s.inflight.set w none
              processedLog := s.processedLog ++ [r]
              results := process_incident c r s.results
              tasksDone := s.tasksDone + 1
              progressCalls :=
                s.progressCalls ++ [(backlog.length - s.queue.length, backlog.length)] } := by
          simp [poolStep, hw]
        have hrb : r ∈ backlog := by
          have h1 : (some r) ∈ s.inflight := mem_of_getElem?_eq hw
          have h2 : r ∈ s.inflight.filterMap id :=
            List.mem_filterMap.mpr ⟨some r, h1, rfl⟩
          have h3 : r ∈ (↑backlog : Multiset Record) := by
            rw [← hms]
            simp only [Multiset.mem_add]
            exact Or.inl (Or.inr (by simpa [inflightRecords] using h2))
          simpa using h3
        rw [hstep]
        refine ⟨?_, by simp [htd], by simp [hlen], ?_⟩
        · show (↑s.queue : Multiset Record) + ↑((s.inflight.set w none).filterMap id)
            + ↑(s.processedLog ++ [r]) = ↑backlog
          simp only [inflightRecords] at hms
          rw [coe_filterMap_set_take s.inflight w r hw] at hms
          rw [Multiset.add_cons, Multiset.cons_add] at hms
          have hpl : (↑(s.processedLog ++ [r]) : Multiset Record) =
              r ::ₘ ↑s.processedLog := by
            simp
          rw [hpl, Multiset.add_cons]
          exact hms
        · intro p hp
          rcases List.mem_append.mp hp with hp | hp
          · exact hpc p hp
          · have : p = (backlog.length - s.queue.length, backlog.length) := by
              simpa using hp
            subst this
            exact ⟨rfl, List.length_pos_of_mem hrb⟩

theorem execPool_inv (c : Client) (backlog : List Record) (n : Nat) :
    ∀ (schedule : List WAction) (s : PoolState), PoolInv backlog n s →
      PoolInv backlog n (execPool c backlog.length s schedule) := by
  intro schedule
  induction schedule with
  | nil => intro s h; exact h
  | cons a rest ih =>
    intro s h
    exact ih (poolStep c backlog.length s a) (poolStep_inv c backlog n s a h)

theorem execPool_drain (c : Client) (total n : Nat) (hn : 0 < n) :
    ∀ (q : List Record) (s : PoolState),
      s.queue = q → s.inflight = List.replicate n none →
      (execPool c total s (drainSchedule q.length)).queue = []
      ∧ (execPool c total s (drainSchedule q.length)).processedLog = s.processedLog ++ q
      ∧ (execPool c total s (drainSchedule q.length)).tasksDone = s.tasksDone + q.length
      ∧ (execPool c total s (drainSchedule q.length)).results = processAll c q s.results
      ∧ (execPool c total s (drainSchedule q.length)).inflight = List.replicate n none := by
  intro q
  induction q with
  | nil =>
    intro s hq hi
    refine ⟨?_, ?_, ?_, ?_, ?_⟩ <;> simp [drainSchedule, execPool, processAll, hq, hi]
  | cons r rest ih =>
    intro s hq hi
    have hq0 : s.inflight[0]? = some none := by
      rw [hi]
      exact replicate_none_getElem_zero n hn
    have h1 : poolStep c total s (WAction.deq 0) =
        { s with queue := rest, inflight := s.inflight.set 0 (some r) } := by
      simp [poolStep, hq0, hq]
    have hi1 : (s.inflight.set 0 (some r))[0]? = some (some r) := by
      rw [hi]
      simp [hn]
    have h2 : poolStep c total
        ({ s with queue := rest, inflight := s.inflight.set 0 (some r) }) (WAction.fin 0) =
        { queue := rest
          inflight := (s.inflight.set 0 (some r)).set 0 none
          processedLog := s.processedLog ++ [r]
          results := process_incident c r s.results
          tasksDone := s.tasksDone + 1
          progressCalls := s.progressCalls ++ [(total - rest.length, total)] } := by
      simp [poolStep, hi1]
    have hi2 : (s.inflight.set 0 (some r)).set 0 none = List.replicate n none := by
      rw [List.set_set, hi]
      exact set_same _ 0 none (replicate_none_getElem_zero n hn)
    have hrun : execPool c total s (drainSchedule (r :: rest).length) =
        execPool c total
          { queue := rest
            inflight := List.replicate n none
            processedLog := s.processedLog ++ [r]
            results := process_incident c r s.results
            tasksDone := s.tasksDone + 1
            progressCalls := s.progressCalls ++ [(total - rest.length, total)] }
          (drainSchedule rest.length) := by
      show execPool c total
          (poolStep c total (poolStep c total s (WAction.deq 0)) (WAction.fin 0))
          (drainSchedule rest.length) = _
      rw [h1, h2, hi2]
    obtain ⟨g1, g2, g3, g4, g5⟩ := ih
      { queue := rest
        inflight := List.replicate n none
        processedLog := s.processedLog ++ [r]
        results := process_incident c r s.results
        tasksDone := s.tasksDone + 1
        progressCalls := s.progressCalls ++ [(total - rest.length, total)] } rfl rfl
    refine ⟨?_, ?_, ?_, ?_, ?_⟩
    · rw [hrun]
      exact g1
    · rw [hrun, g2]
      simp
    · rw [hrun, g3]
      show s.tasksDone + 1 + rest.length = s.tasksDone + (r :: rest).length
      rw [List.length_cons]
      omega
    · rw [hrun, g4]
      rfl
    · rw [hrun]
      exact g5

/-- C8: with any worker count of at least one, the pool drains a
pre-populated backlog: the draining schedule empties the queue, the log
of processed records is exactly the backlog (each record dequeued and
processed exactly once), `task_done` has been called once per record,
and only then does the coordinator's join release and the report get
built from the merged results; moreover under every interleaving
whatsoever, once the join condition holds the processed log is a
permutation of the backlog — nothing dropped, retried or duplicated. -/
theorem claim_pool_drains (c : Client) (backlog : List Record) (n : Nat) (hn : 1 ≤ n) :
    (execPool c backlog.length (initPool backlog n) (drainSchedule backlog.length)).processedLog
      = backlog
    ∧ (execPool c backlog.length (initPool backlog n) (drainSchedule backlog.length)).queue = []
    ∧ (execPool c backlog.length (initPool backlog n) (drainSchedule backlog.length)).tasksDone
      = backlog.length
    ∧ runPool c backlog n (drainSchedule backlog.length) =
      some (processAll c backlog initResults)
    ∧ (∀ schedule : List WAction,
        (execPool c backlog.length (initPool backlog n) schedule).tasksDone = backlog.length →
        (execPool c backlog.length (initPool backlog n) schedule).processedLog.Perm backlog) := by
  obtain ⟨g1, g2, g3, g4, g5⟩ :=
    execPool_drain c backlog.length n hn backlog (initPool backlog n) rfl rfl
  have htd : (execPool c backlog.length (initPool backlog n)
      (drainSchedule backlog.length)).tasksDone = backlog.length := by
    rw [g3]
    simp [initPool]
  refine ⟨?_, g1, htd, ?_, ?_⟩
  · rw [g2]
    simp [initPool]
  · have hrp : runPool c backlog n (drainSchedule backlog.length) =
        if (execPool c backlog.length (initPool backlog n)
            (drainSchedule backlog.length)).tasksDone = backlog.length
        then some ((execPool c backlog.length (initPool backlog n)
            (drainSchedule backlog.length)).results)
        else none := rfl
    rw [hrp, htd, if_pos rfl, g4]
    rfl
  · intro schedule hdone
    obtain ⟨hms, htd2, _, _⟩ :=
      execPool_inv c backlog n schedule (initPool backlog n) (initPool_inv backlog n)
    have hcard := congrArg Multiset.card hms
    simp only [Multiset.card_add, Multiset.coe_card] at hcard
    have hqnil : (execPool c backlog.length (initPool backlog n) schedule).queue = [] := by
      apply List.length_eq_zero.mp
      omega
    have hinil : inflightRecords (execPool c backlog.length (initPool backlog n) schedule)
        = [] := by
      apply List.length_eq_zero.mp
      omega
    rw [hqnil, hinil] at hms
    simp only [Multiset.coe_nil, zero_add] at hms
    exact Multiset.coe_eq_coe.mp hms

/-- Witness for C8 at a two-record backlog with one worker. -/
theorem claim_pool_drains_witness :
    (execPool trivialClient 2 (initPool [rec1, rec2] 1) (drainSchedule 2)).processedLog
      = [rec1, rec2]
    ∧ runPool trivialClient [rec1, rec2] 1 (drainSchedule 2) =
      some (processAll trivialClient [rec1, rec2] initResults) := by
  have h := claim_pool_drains trivialClient [rec1, rec2] 1 (by norm_num)
  exact ⟨h.1, h.2.2.2.1⟩

/-- C10: every `print_progress` call recorded during any interleaved
execution happens with a positive total, so `current / float(total)`
never divides by zero; with an empty record set no call ever occurs. -/
theorem claim_progress_division_safe (c : Client) (backlog : List Record) (n : Nat)
    (schedule : List WAction) :
    (∀ p ∈ (execPool c backlog.length (initPool backlog n) schedule).progressCalls,
      (print_progress p.1 p.2).isSome = true)
    ∧ (backlog = [] →
      (execPool c backlog.length (initPool backlog n) schedule).progressCalls = []) := by
  obtain ⟨_, _, _, hpc⟩ :=
    execPool_inv c backlog n schedule (initPool backlog n) (initPool_inv backlog n)
  constructor
  · intro p hp
    obtain ⟨h2, hpos⟩ := hpc p hp
    have hne : ¬ (p.2 = 0) := by omega
    simp [print_progress, hne]
  · intro hb
    subst hb
    apply List.eq_nil_iff_forall_not_mem.mpr
    intro p hp
    have := (hpc p hp).2
    simp at this

/-- Witness for C10: a one-record run records the call (1, 1), whose
division is defined. -/
theorem claim_progress_division_safe_witness :
    (print_progress 1 1).isSome = true := by
  have hmem : ((1 : Nat), (1 : Nat)) ∈ (execPool trivialClient [rec1].length
      (initPool [rec1] 1) [WAction.deq 0, WAction.fin 0]).progressCalls := by
    decide
  exact (claim_progress_division_safe trivialClient [rec1] 1
    [WAction.deq 0, WAction.fin 0]).1 (1, 1) hmem

end SOARStats
